import Mathlib

/-!
# Verification of the MUSCLE3 instance-side runtime (libmuscle C++)

A shallow embedding of `libmuscle/instance.cpp` and `libmuscle/profiler.cpp`.
The Communicator and the manager RPC client are external collaborators of the
code under study; they are modelled as an explicit environment (a pending
message queue per (port, slot), static port metadata, and an instrumentation
trace of submitted profile batches), following the contracts stated for them
in the repository's interface documentation.  All functions of `Instance` and
`Profiler` that the claims touch are translated statement by statement from
the C++ source; network effects that the claims do not observe (the actual
wire traffic of `close_ports_`, `Communicator::shutdown` and
`deregister_instance`) are outside the state, but the *call* to `shutdown_`
and its idempotence guard are modelled faithfully, with a call counter so
that the error-policy theorems can observe that `shutdown_` ran.
-/

namespace Muscle

/-- The ymmsl operators a port can be bound to (`ymmsl::Operator`). -/
inductive Operator where
  | F_INIT
  | O_I
  | S
  | B
  | O_F
deriving DecidableEq

/-- Setting values; the claims only need equality of settings, so scalar
values are modelled as integers. -/
abbrev SettingValue := Int

/-- `ymmsl::Settings`: an ordered mapping from setting name to value. -/
abbrev Settings := List (String × SettingValue)

/-- `Settings::operator[] =`: bind a key, replacing an existing binding. -/
def Settings.set (s : Settings) (k : String) (v : SettingValue) : Settings :=
  if (s.lookup k).isSome then
    s.map (fun kv => if kv.1 = k then (k, v) else kv)
  else
    s ++ [(k, v)]

/-- The tagged payload union of a message: the `ClosePort` sentinel, a
`Settings` value, or user domain data. -/
inductive Data where
  | close_port
  | settings (s : Settings)
  | user (v : Int)
deriving DecidableEq

/-- `ymmsl::is_close_port`. -/
def is_close_port : Data → Bool
  | .close_port => true
  | _ => false

/-- `libmuscle::Message`: timestamp, optional next timestamp, payload and
optional attached settings overlay.  Timestamps are abstracted to integers
(no claim computes with them). -/
structure Message where
  timestamp : Int
  next_timestamp : Option Int
  data : Data
  settings : Option Settings
deriving DecidableEq

/-- `Message::has_settings`. -/
def Message.has_settings (m : Message) : Bool := m.settings.isSome

/-- `Message::unset_settings`. -/
def Message.unset_settings (m : Message) : Message := { m with settings := none }

/-- Port metadata as exposed by `Communicator::get_port`.  `is_open` is
per-slot state (the `none` slot stands for the scalar port itself). -/
structure Port where
  oper : Operator
  is_connected : Bool
  is_vector : Bool
  is_resizable : Bool
  length : Nat
  is_open : Option Int → Bool

/-- A key of the F_INIT cache: `Reference(port_name)` optionally extended
with a slot index. -/
abbrev PortKey := String × Option Int

/-- Lookup in the F_INIT cache (`f_init_cache_.count` / `.at`). -/
def cache_lookup : List (PortKey × Message) → PortKey → Option Message
  | [], _ => none
  | kv :: rest, k => if kv.1 = k then some kv.2 else cache_lookup rest k

/-- `f_init_cache_.erase`. -/
def cache_erase : List (PortKey × Message) → PortKey → List (PortKey × Message)
  | [], _ => []
  | kv :: rest, k =>
    if kv.1 = k then cache_erase rest k else kv :: cache_erase rest k

/-- `f_init_cache_.emplace`: inserts only when the key is absent
(`std::map::emplace` never overwrites). -/
def cache_emplace (c : List (PortKey × Message)) (k : PortKey) (m : Message) :
    List (PortKey × Message) :=
  if (cache_lookup c k).isSome then c else c ++ [(k, m)]

/-- The Communicator environment: the declared port lists per operator
(`list_ports`), static port metadata (`get_port` / `port_exists`), the
connection state of the reserved `muscle_settings_in` port
(`settings_in_connected`), and the pending peer messages per (port, slot). -/
structure Communicator where
  ports : List (Operator × List String)
  port_info : String → Option Port
  settings_in_connected : Bool
  inbox : String → Option Int → List Message

/-- `Communicator::port_exists`. -/
def Communicator.port_exists (c : Communicator) (p : String) : Bool :=
  (c.port_info p).isSome

/-- Whether a receive on this port reaches a peer: for the reserved
`muscle_settings_in` name this is `settings_in_connected`, otherwise the
port's own connection state. -/
def Communicator.port_connected (c : Communicator) (p : String) : Bool :=
  if p = "muscle_settings_in" then c.settings_in_connected
  else
    match c.port_info p with
    | some port => port.is_connected
    | none => false

/-- `Communicator::receive_message(port, slot, default)`, per its contract:
on a connected port the next pending message is delivered (`none` when the
call would block forever because nothing is pending); on a port that is not
connected the default message is returned when one was given, and the call
blocks otherwise. -/
def Communicator.receive_message (c : Communicator) (port : String)
    (slot : Option Int) (default_msg : Option Message) :
    Option (Message × Communicator) :=
  if c.port_connected port then
    match c.inbox port slot with
    | [] => none
    | m :: rest =>
      some (m, { c with
        inbox := fun p sl =>
          if p = port ∧ sl = slot then rest else c.inbox p sl })
  else
    match default_msg with
    | some d => some (d, c)
    | none => none

/-- `find` in the `Operator → [port]` map returned by `list_ports`
(`ports.count(op)` / `ports.at(op)`; keys are unique). -/
def find_ports : List (Operator × List String) → Operator → Option (List String)
  | [], _ => none
  | op_ns :: rest, o => if op_ns.1 = o then some op_ns.2 else find_ports rest o

/-- The Instance-visible mutable state: the communicator environment, the
settings overlay (`settings_manager_.overlay`), the `first_run_` flag, the
F_INIT pre-receive cache, and the shutdown flag.  `shutdown_calls` counts
invocations of `shutdown_` (instrumentation of the call, which in the C++
also performs network traffic not observed by any claim). -/
structure InstanceState where
  comm : Communicator
  overlay : Settings
  first_run : Bool
  f_init_cache : List (PortKey × Message)
  is_shut_down : Bool
  shutdown_calls : Nat

/-- `Instance::shutdown_`: idempotent via the `is_shut_down_` guard; the
counter records that the call happened. -/
def shutdown_ (s : InstanceState) : InstanceState :=
  let s1 := { s with shutdown_calls := s.shutdown_calls + 1 }
  if s1.is_shut_down then s1 else { s1 with is_shut_down := true }

/-- The structured content of the exceptions `Instance` throws. -/
inductive ErrKind where
  | port_does_not_exist (port : String)
  | double_receive (port_ref : PortKey)
  | not_connected_no_default (port_ref : PortKey)
  | with_settings_stripped
  | bad_settings_payload
  | settings_mismatch (port : String) (local_overlay : Settings) (received : Settings)
  | port_closed (port : String)
deriving DecidableEq

/-- `std::logic_error` / `std::runtime_error`, with the message content
carried structurally. -/
inductive MuscleError where
  | logic_error (k : ErrKind)
  | runtime_error (k : ErrKind)
deriving DecidableEq

/-- Result of a fallible, possibly state-changing Instance operation:
normal return with the new state, an exception together with the state at
the moment of the throw, or an indefinite block inside the Communicator. -/
inductive Outcome (α : Type) where
  | ok (a : α) (s : InstanceState)
  | err (e : MuscleError) (s : InstanceState)
  | blocked

/-- The returned value of a normal completion. -/
def Outcome.result? : Outcome α → Option α
  | .ok a _ => some a
  | _ => none

/-- The state after a normal completion. -/
def Outcome.state? : Outcome α → Option InstanceState
  | .ok _ s => some s
  | _ => none

/-- The raised error, if any. -/
def Outcome.error? : Outcome α → Option MuscleError
  | .err e _ => some e
  | _ => none

/-- The state at the moment an error was raised. -/
def Outcome.err_state? : Outcome α → Option InstanceState
  | .err _ s => some s
  | _ => none

/-- `Instance::check_port_`: checks that the port exists, calling
`shutdown_` and throwing a logic error if not. -/
def check_port_ (s : InstanceState) (port_name : String) : Outcome Unit :=
  if s.comm.port_exists port_name then .ok () s
  else .err (.logic_error (.port_does_not_exist port_name)) (shutdown_ s)

/-- `Instance::check_compatibility_`: the parallel-universe check.  If the
received overlay is set and differs from the local overlay, `shutdown_` is
called and a logic error describing both overlays is thrown. -/
def check_compatibility_ (s : InstanceState) (port_name : String)
    (overlay : Option Settings) : Outcome Unit :=
  match overlay with
  | none => .ok () s
  | some ov =>
    if s.overlay ≠ ov then
      .err (.logic_error (.settings_mismatch port_name s.overlay ov)) (shutdown_ s)
    else .ok () s

/-- `Instance::receive_message_(port_name, slot, default_msg, with_settings)`:
the common receive dispatch.  Translated branch by branch from the source:
the F_INIT branch serves the pre-receive cache (erasing the entry before the
`with_settings` consistency check, as the C++ does), the non-F_INIT branch
delegates to the Communicator, then checks the closed-port condition, runs
the parallel-universe check when connected without `with_settings`, and
strips the settings unless `with_settings` was requested. -/
def receive_message_ (s : InstanceState) (port_name : String)
    (slot : Option Int) (default_msg : Option Message) (with_settings : Bool) :
    Outcome Message :=
  match check_port_ s port_name with
  | .err e s1 => .err e s1
  | .blocked => .blocked
  | .ok _ s1 =>
    match s1.comm.port_info port_name with
    | none => .blocked
    | some port =>
      let port_ref : PortKey := (port_name, slot)
      if port.oper = .F_INIT then
        match cache_lookup s1.f_init_cache port_ref with
        | some msg =>
          let s2 := { s1 with f_init_cache := cache_erase s1.f_init_cache port_ref }
          if with_settings && ! msg.has_settings then
            .err (.logic_error .with_settings_stripped) (shutdown_ s2)
          else .ok msg s2
        | none =>
          if port.is_connected then
            .err (.logic_error (.double_receive port_ref)) (shutdown_ s1)
          else
            match default_msg with
            | some d => .ok d s1
            | none =>
              .err (.logic_error (.not_connected_no_default port_ref)) (shutdown_ s1)
      else
        match s1.comm.receive_message port_name slot default_msg with
        | none => .blocked
        | some (msg, comm2) =>
          let s2 := { s1 with comm := comm2 }
          if port.is_connected && ! port.is_open slot then
            .err (.runtime_error (.port_closed port_name)) (shutdown_ s2)
          else
            match
              (if port.is_connected && ! with_settings then
                check_compatibility_ s2 port_name msg.settings
              else .ok () s2) with
            | .err e s3 => .err e s3
            | .blocked => .blocked
            | .ok _ s3 =>
              .ok (if ! with_settings then msg.unset_settings else msg) s3

/-- `Instance::receive(port_name)`. -/
def receive (s : InstanceState) (port_name : String) : Outcome Message :=
  receive_message_ s port_name none none false

/-- `Instance::receive(port_name, slot)`. -/
def receive_on_slot (s : InstanceState) (port_name : String) (slot : Int) :
    Outcome Message :=
  receive_message_ s port_name (some slot) none false

/-- `Instance::receive(port_name, default_msg)`. -/
def receive_or_default (s : InstanceState) (port_name : String)
    (default_msg : Message) : Outcome Message :=
  receive_message_ s port_name none (some default_msg) false

/-- `Instance::receive(port_name, slot, default_msg)`. -/
def receive_on_slot_or_default (s : InstanceState) (port_name : String)
    (slot : Int) (default_msg : Message) : Outcome Message :=
  receive_message_ s port_name (some slot) (some default_msg) false

/-- `Instance::receive_with_settings(port_name)`. -/
def receive_with_settings (s : InstanceState) (port_name : String) :
    Outcome Message :=
  receive_message_ s port_name none none true

/-- `Instance::receive_with_settings(port_name, slot)`.  The source passes
`false` for `with_settings` here (instance.cpp line 170); the translation
keeps that behaviour. -/
def receive_with_settings_on_slot (s : InstanceState) (port_name : String)
    (slot : Int) : Outcome Message :=
  receive_message_ s port_name (some slot) none false

/-- `Instance::receive_with_settings(port_name, default_msg)`. -/
def receive_with_settings_or_default (s : InstanceState) (port_name : String)
    (default_msg : Message) : Outcome Message :=
  receive_message_ s port_name none (some default_msg) true

/-- `Instance::receive_with_settings(port_name, slot, default_msg)`. -/
def receive_with_settings_on_slot_or_default (s : InstanceState)
    (port_name : String) (slot : Int) (default_msg : Message) : Outcome Message :=
  receive_message_ s port_name (some slot) (some default_msg) true

/-- `Instance::receive_settings_`: receives on `muscle_settings_in` with a
default `Message(0.0, Settings(), Settings())`; returns false iff the
payload is `ClosePort`; otherwise the payload must be a `Settings` value,
which is layered over the message's own settings field to become the new
overlay. -/
def receive_settings_ (s : InstanceState) : Outcome Bool :=
  let default_message : Message := ⟨0, none, .settings [], some []⟩
  match s.comm.receive_message "muscle_settings_in" none (some default_message) with
  | none => .blocked
  | some (msg, comm2) =>
    let s1 := { s with comm := comm2 }
    if is_close_port msg.data then .ok false s1
    else
      match msg.data with
      | .settings data_settings =>
        let base : Settings :=
          match msg.settings with
          | some st => st
          | none => []
        let new_overlay :=
          data_settings.foldl (fun acc kv => Settings.set acc kv.1 kv.2) base
        .ok true { s1 with overlay := new_overlay }
      | _ => .err (.logic_error .bad_settings_payload) (shutdown_ s1)

/-- `Instance::apply_overlay_`: installs the message's settings as the local
overlay when the local overlay is still empty. -/
def apply_overlay_ (s : InstanceState) (message : Message) : InstanceState :=
  if s.overlay = [] then
    match message.settings with
    | some st => { s with overlay := st }
    | none => s
  else s

/-- `Instance::pre_receive_`: receive one message on (port, slot); when
`apply_overlay` is set, adopt its settings as the overlay if we have none,
run the parallel-universe check, and strip the settings; then place the
message in the F_INIT cache under `port[slot]`. -/
def pre_receive_ (s : InstanceState) (port_name : String) (slot : Option Int)
    (apply_overlay : Bool) : Outcome Unit :=
  let port_ref : PortKey := (port_name, slot)
  match s.comm.receive_message port_name slot none with
  | none => .blocked
  | some (msg, comm2) =>
    let s1 := { s with comm := comm2 }
    if apply_overlay then
      let s2 := apply_overlay_ s1 msg
      match check_compatibility_ s2 port_name msg.settings with
      | .err e s3 => .err e s3
      | .blocked => .blocked
      | .ok _ s3 =>
        .ok () { s3 with
          f_init_cache := cache_emplace s3.f_init_cache port_ref msg.unset_settings }
    else
      .ok () { s1 with
        f_init_cache := cache_emplace s1.f_init_cache port_ref msg }

/-- The per-slot loop of `pre_receive_f_init_`:
`for (int slot = 0; slot < port.get_length(); ++slot) pre_receive_(...)`. -/
def pre_receive_slots (port_name : String) (apply_overlay : Bool) :
    List Int → InstanceState → Outcome Unit
  | [], s => .ok () s
  | slot :: rest, s =>
    match pre_receive_ s port_name (some slot) apply_overlay with
    | .err e s1 => .err e s1
    | .blocked => .blocked
    | .ok _ s1 => pre_receive_slots port_name apply_overlay rest s1

/-- The per-port body of `pre_receive_f_init_`: skip unconnected ports;
scalar ports pre-receive once; vector ports pre-receive slot 0 first (the
source comment: that receive carries the resolved length for resizable
ports) and then every slot `0 … length-1`. -/
def pre_receive_port (port_name : String) (apply_overlay : Bool)
    (s : InstanceState) : Outcome Unit :=
  match s.comm.port_info port_name with
  | none => .ok () s
  | some port =>
    if ! port.is_connected then .ok () s
    else if ! port.is_vector then pre_receive_ s port_name none apply_overlay
    else
      match pre_receive_ s port_name (some 0) apply_overlay with
      | .err e s1 => .err e s1
      | .blocked => .blocked
      | .ok _ s1 =>
        pre_receive_slots port_name apply_overlay
          ((List.range port.length).map Int.ofNat) s1

/-- The port loop of `pre_receive_f_init_`. -/
def pre_receive_ports (apply_overlay : Bool) :
    List String → InstanceState → Outcome Unit
  | [], s => .ok () s
  | pn :: rest, s =>
    match pre_receive_port pn apply_overlay s with
    | .err e s1 => .err e s1
    | .blocked => .blocked
    | .ok _ s1 => pre_receive_ports apply_overlay rest s1

/-- `Instance::pre_receive_f_init_`: clear the cache, then pre-receive on
every port connected to F_INIT. -/
def pre_receive_f_init_ (s : InstanceState) (apply_overlay : Bool) :
    Outcome Unit :=
  let s1 := { s with f_init_cache := [] }
  match find_ports s1.comm.ports .F_INIT with
  | none => .ok () s1
  | some names => pre_receive_ports apply_overlay names s1

/-- `get_port(port).is_connected()` as used by `reuse_instance`'s scan. -/
def port_is_connected (c : Communicator) (p : String) : Bool :=
  match c.port_info p with
  | some port => port.is_connected
  | none => false

/-- The `f_init_not_connected` scan of `reuse_instance`: true iff no port
listed under F_INIT is connected. -/
def f_init_not_connected_of (c : Communicator) : Bool :=
  match find_ports c.ports .F_INIT with
  | none => true
  | some names => names.all (fun pn => ! port_is_connected c pn)

/-- `Instance::reuse_instance(apply_overlay)`: receive the settings overlay,
pre-receive all F_INIT inputs, then decide reuse: with neither an F_INIT nor
a settings-in connection, consume `first_run_`; otherwise start from the
value of `receive_settings_` and force false when any cache entry holds a
`ClosePort` payload. -/
def reuse_instance (s : InstanceState) (apply_overlay : Bool) : Outcome Bool :=
  match receive_settings_ s with
  | .err e s1 => .err e s1
  | .blocked => .blocked
  | .ok do_reuse s1 =>
    match pre_receive_f_init_ s1 apply_overlay with
    | .err e s2 => .err e s2
    | .blocked => .blocked
    | .ok _ s2 =>
      let f_init_not_connected := f_init_not_connected_of s2.comm
      let no_settings_in := ! s2.comm.settings_in_connected
      if f_init_not_connected && no_settings_in then
        .ok s2.first_run { s2 with first_run := false }
      else
        .ok
          (if s2.f_init_cache.any (fun kv => is_close_port kv.2.data) then false
           else do_reuse)
          s2

/-- Iterated `reuse_instance` calls (the user's reuse loop), collecting the
returned booleans; `none` when a call raised or blocked. -/
def run_reuse : InstanceState → List Bool → Option (List Bool × InstanceState)
  | s, [] => some ([], s)
  | s, ao :: rest =>
    match reuse_instance s ao with
    | .ok b s1 => (run_reuse s1 rest).map (fun (p : List Bool × InstanceState) => (b :: p.1, p.2))
    | _ => none

/-- The `[]`-suffix handling of `Instance::list_declared_ports_`:
`if (fullname.size() > 2 && fullname.substr(fullname.size() - 2) == "[]")
portname = fullname.substr(0, fullname.size() - 2)`. -/
def strip_vector_suffix (fullname : String) : String :=
  if 2 < fullname.length ∧
      fullname.data.drop (fullname.length - 2) = ['[', ']'] then
    String.mk (fullname.data.take (fullname.length - 2))
  else fullname

/-- `Instance::list_declared_ports_`: one `(name, operator)` entry per
declared name, with the vector suffix handled as in the source. -/
def list_declared_ports_ (declared_ports : List (Operator × List String)) :
    List (String × Operator) :=
  declared_ports.flatMap (fun op_ports =>
    op_ports.2.map (fun fullname => (strip_vector_suffix fullname, op_ports.1)))

/-- A profiling event: an identifying label and optional start/stop
timestamps (`ProfileEvent`; timestamps abstracted to integers). -/
structure ProfileEvent where
  label : String
  start_time : Option Int
  stop_time : Option Int
deriving DecidableEq

/-- Profiler state: the enable flag (default true), the event buffer, and —
as instrumentation of the manager RPC client — the list of batches passed to
`submit_profile_events`, in call order. -/
structure Profiler where
  enabled : Bool
  events : List ProfileEvent
  submitted : List (List ProfileEvent)

/-- A fresh profiler as constructed by `Profiler::Profiler`. -/
def Profiler.fresh : Profiler := ⟨true, [], []⟩

/-- `Profiler::set_level`: enabled iff the level is "all". -/
def Profiler.set_level (p : Profiler) (level : String) : Profiler :=
  { p with enabled := level == "all" }

/-- `Profiler::flush_`: when the buffer is non-empty, submit it as one batch
and clear it. -/
def Profiler.flush_ (p : Profiler) : Profiler :=
  if p.events.isEmpty then p
  else { p with submitted := p.submitted ++ [p.events], events := [] }

/-- `Profiler::record_event(event)`: fill in a missing stop timestamp with
the current time (`now`, a parameter of the model since the C++ reads the
wall clock), append when enabled, flush when the buffer has reached 100
events. -/
def Profiler.record_event (p : Profiler) (event : ProfileEvent) (now : Int) :
    Profiler :=
  let event :=
    if event.stop_time.isSome then event
    else { event with stop_time := some now }
  let p1 := if p.enabled then { p with events := p.events ++ [event] } else p
  if 100 ≤ p1.events.length then p1.flush_ else p1

/-- Record a sequence of events, each with its own current time. -/
def record_all (p : Profiler) : List (ProfileEvent × Int) → Profiler
  | [] => p
  | en :: rest => record_all (p.record_event en.1 en.2) rest

/-- The stop-time completion `record_event` applies to a single event. -/
def fill_stop (event : ProfileEvent) (now : Int) : ProfileEvent :=
  if event.stop_time.isSome then event else { event with stop_time := some now }

/-- The F_INIT receive behaviour as claim C5 words it: a cache hit returns
the cached message and erases the entry; a miss on a connected port raises
the receive-twice logic error; a miss on a disconnected port returns the
default when given and otherwise raises the not-connected logic error. -/
def f_init_receive_claimed (s : InstanceState) (port : Port)
    (port_name : String) (slot : Option Int) (default_msg : Option Message) :
    Outcome Message :=
  let port_ref : PortKey := (port_name, slot)
  match cache_lookup s.f_init_cache port_ref with
  | some msg =>
    .ok msg { s with f_init_cache := cache_erase s.f_init_cache port_ref }
  | none =>
    if port.is_connected then
      .err (.logic_error (.double_receive port_ref)) (shutdown_ s)
    else
      match default_msg with
      | some d => .ok d s
      | none =>
        .err (.logic_error (.not_connected_no_default port_ref)) (shutdown_ s)

/-- The parallel-universe check as claim C6 words it: raise a logic error
describing both overlays exactly when the received overlay is present and
differs from the local one; otherwise return without effect. -/
def check_compatibility_claimed (s : InstanceState) (port_name : String)
    (overlay : Option Settings) : Outcome Unit :=
  match overlay with
  | none => .ok () s
  | some ov =>
    if ov = s.overlay then .ok () s
    else .err (.logic_error (.settings_mismatch port_name s.overlay ov)) (shutdown_ s)

/-- The name sanitisation as claim C8 words it: a trailing `[]` suffix is
removed, with no length proviso. -/
def claimed_strip (n : String) : String :=
  if n.data.drop (n.length - 2) = ['[', ']'] then
    String.mk (n.data.take (n.length - 2))
  else n

/-- `list_declared_ports_` as claim C8 words it: exactly one
`(name, operator)` pair per declared leaf name, the name with its trailing
`[]` suffix removed and the operator the one it was declared under. -/
def list_declared_ports_claimed (declared_ports : List (Operator × List String)) :
    List (String × Operator) :=
  declared_ports.flatMap (fun op_ports =>
    op_ports.2.map (fun fullname => (claimed_strip fullname, op_ports.1)))

/-! ## Theorems -/

/-- C6: `check_compatibility_` raises a logic error describing both the
local and the received overlay exactly when the received overlay is present
and differs from the local overlay; when the received overlay is absent, or
present and equal to the local overlay, it returns without effect. -/
theorem check_compatibility_matches_claim (s : InstanceState) (pn : String)
    (ov : Option Settings) :
    check_compatibility_ s pn ov = check_compatibility_claimed s pn ov := by
  cases ov with
  | none => rfl
  | some o =>
    by_cases h : s.overlay = o
    · simp [check_compatibility_, check_compatibility_claimed, h]
    · have h2 : ¬ o = s.overlay := fun hh => h hh.symm
      simp [check_compatibility_, check_compatibility_claimed, h, h2]

/-- C5: for every receive (plain dispatch, `with_settings = false`) on an
F_INIT port, the behaviour is exactly as the claim states: a cache hit
returns the cached message and erases the entry; a miss on a connected port
raises the receive-twice logic error; a miss on a disconnected port returns
the default when one was given and otherwise raises the not-connected logic
error. -/
theorem f_init_receive_matches_claim (s : InstanceState) (pn : String)
    (slot : Option Int) (dflt : Option Message) (port : Port)
    (hinfo : s.comm.port_info pn = some port) (hop : port.oper = .F_INIT) :
    receive_message_ s pn slot dflt false = f_init_receive_claimed s port pn slot dflt := by
  unfold receive_message_ check_port_
  simp only [Communicator.port_exists, hinfo, Option.isSome_some, if_true, hop]
  cases hcl : cache_lookup s.f_init_cache (pn, slot) with
  | some msg => simp [f_init_receive_claimed, hcl]
  | none =>
    cases hc : port.is_connected with
    | true => simp [f_init_receive_claimed, hcl, hc]
    | false =>
      cases dflt with
      | some d => simp [f_init_receive_claimed, hcl, hc]
      | none => simp [f_init_receive_claimed, hcl, hc]

/-- A connected scalar F_INIT port. -/
def port_f_init_conn : Port := ⟨.F_INIT, true, false, false, 0, fun _ => true⟩

/-- A cached F_INIT message whose settings were already stripped. -/
def msg_cached : Message := ⟨0, none, .user 42, none⟩

/-- A communicator with one connected F_INIT port and nothing pending. -/
def comm5 : Communicator :=
  ⟨[(.F_INIT, ["init_in"])],
   fun p => if p = "init_in" then some port_f_init_conn else none,
   false,
   fun _ _ => []⟩

/-- An instance state whose F_INIT cache holds one pre-received message. -/
def state5 : InstanceState :=
  ⟨comm5, [], true, [(("init_in", none), msg_cached)], false, 0⟩

/-- Witness for C5 at a concrete cache-hit state. -/
theorem f_init_receive_matches_claim_witness :
    receive_message_ state5 "init_in" none none false
      = f_init_receive_claimed state5 port_f_init_conn "init_in" none none :=
  f_init_receive_matches_claim state5 "init_in" none none port_f_init_conn rfl rfl

/-- A connected scalar S port that is open. -/
def port_s_conn : Port := ⟨.S, true, false, false, 0, fun _ => true⟩

/-- A pending message carrying the overlay `{dt: 2}`. -/
def msg_dt2 : Message := ⟨0, none, .user 7, some [("dt", 2)]⟩

/-- A communicator with one connected S port with one pending message. -/
def comm1 : Communicator :=
  ⟨[(.S, ["s_in"])],
   fun p => if p = "s_in" then some port_s_conn else none,
   false,
   fun p _ => if p = "s_in" then [msg_dt2] else []⟩

/-- An instance whose local overlay `{dt: 1}` differs from the incoming
message's overlay `{dt: 2}`. -/
def state1 : InstanceState := ⟨comm1, [("dt", 1)], true, [], false, 0⟩

/-- C1 (code evaluated at the failing input): the slot overload of
`receive_with_settings` dispatches `with_settings = false` (instance.cpp
line 170), so on a connected non-F_INIT port it runs the overlay-equality
check and fails — while the same dispatch with `with_settings = true`
returns the message with its settings retained. -/
theorem receive_with_settings_on_slot_passes_false_eval :
    (receive_with_settings_on_slot state1 "s_in" 0).error?
        = some (.logic_error (.settings_mismatch "s_in" [("dt", 1)] [("dt", 2)])) ∧
      ((receive_message_ state1 "s_in" (some 0) none true).result?).map Message.settings
        = some (some [("dt", 2)]) := by
  decide

/-- A pending F_INIT message that carries settings `{x: 1}`. -/
def msg_x1 : Message := ⟨0, none, .user 42, some [("x", 1)]⟩

/-- A communicator with one connected F_INIT port holding `msg_x1`. -/
def comm2w : Communicator :=
  ⟨[(.F_INIT, ["init_in"])],
   fun p => if p = "init_in" then some port_f_init_conn else none,
   false,
   fun p _ => if p = "init_in" then [msg_x1] else []⟩

/-- A fresh instance state in front of `comm2w`. -/
def state2 : InstanceState := ⟨comm2w, [], true, [], false, 0⟩

/-- One reuse iteration with `apply_overlay = false` followed by the user's
plain receive on the F_INIT port. -/
def c2_run : Outcome Message :=
  match reuse_instance state2 false with
  | .ok _ s1 => receive s1 "init_in"
  | _ => .blocked

/-- C2 counterexample: after `reuse_instance(false)`, a plain receive on a
connected F_INIT port returns the cached message with its settings still
attached — not stripped as the claim states. -/
theorem plain_receive_retains_settings_counterexample :
    c2_run.result?.map Message.settings = some (some [("x", 1)]) ∧
      c2_run.result?.map Message.settings ≠ some (none : Option Settings) := by
  decide

/-- C2 (amended): every message returned by a plain receive (`with_settings
= false`) on a non-F_INIT port has no settings attached. -/
theorem plain_receive_strips_settings_amended (s : InstanceState) (pn : String)
    (sl : Option Int) (d : Option Message) (port : Port) (m : Message)
    (hinfo : s.comm.port_info pn = some port) (hop : ¬ port.oper = .F_INIT)
    (hres : (receive_message_ s pn sl d false).result? = some m) :
    m.settings = none := by
  unfold receive_message_ check_port_ at hres
  simp only [Communicator.port_exists, hinfo, Option.isSome_some, if_true, hop,
    if_false] at hres
  cases hr : s.comm.receive_message pn sl d with
  | none => rw [hr] at hres; simp [Outcome.result?] at hres
  | some mc =>
    obtain ⟨msg, comm2⟩ := mc
    rw [hr] at hres
    by_cases hcond : (port.is_connected && ! port.is_open sl) = true
    · simp [hcond, Outcome.result?] at hres
    · simp only [Bool.not_eq_true] at hcond
      rw [hcond] at hres
      simp only [if_false] at hres
      cases hcc : (if port.is_connected && ! false then
          check_compatibility_ { s with comm := comm2 } pn msg.settings
        else Outcome.ok () { s with comm := comm2 }) with
      | ok u s3 =>
        rw [hcc] at hres
        simp only [Bool.false_eq_true, if_false, Bool.not_false, if_true,
          Outcome.result?, Option.some.injEq] at hres
        rw [← hres]
        rfl
      | err e s3 => rw [hcc] at hres; simp [Outcome.result?] at hres
      | blocked => rw [hcc] at hres; simp [Outcome.result?] at hres

/-- A state whose overlay matches the pending message on the S port. -/
def state2a : InstanceState := ⟨comm1, [("dt", 2)], true, [], false, 0⟩

/-- Witness for the amended C2 at a concrete matching-overlay receive. -/
theorem plain_receive_strips_settings_amended_witness :
    (Message.unset_settings msg_dt2).settings = none :=
  plain_receive_strips_settings_amended state2a "s_in" (some 0) none port_s_conn
    msg_dt2.unset_settings rfl (by decide) rfl

/-- C8 counterexample: on the declared name `"[]"` the source keeps the name
verbatim (the guard requires length greater than 2), while the claim's
unconditional suffix removal would register the empty name. -/
theorem list_declared_ports_bare_brackets_counterexample :
    list_declared_ports_ [(.F_INIT, ["[]"])] = [("[]", .F_INIT)] ∧
      list_declared_ports_claimed [(.F_INIT, ["[]"])] = [("", .F_INIT)] ∧
      ("[]" : String) ≠ "" := by
  decide

/-- On any name other than the bare `"[]"`, the source's guarded suffix
removal agrees with the claim's unconditional one. -/
theorem claimed_strip_eq_of_ne (n : String) (h : n ≠ "[]") :
    strip_vector_suffix n = claimed_strip n := by
  obtain ⟨l⟩ := n
  show (if 2 < l.length ∧ l.drop (l.length - 2) = ['[', ']'] then
      String.mk (l.take (l.length - 2)) else ⟨l⟩)
    = (if l.drop (l.length - 2) = ['[', ']'] then
      String.mk (l.take (l.length - 2)) else ⟨l⟩)
  by_cases hc : l.drop (l.length - 2) = ['[', ']']
  · by_cases h2 : 2 < l.length
    · rw [if_pos ⟨h2, hc⟩, if_pos hc]
    · exfalso
      apply h
      have hd : (l.drop (l.length - 2)).length = 2 := by rw [hc]; rfl
      rw [List.length_drop] at hd
      have h0 : l.length - 2 = 0 := by omega
      rw [h0, List.drop_zero] at hc
      rw [hc]
  · rw [if_neg (fun hh => hc hh.2), if_neg hc]

/-- C8 (amended): for every declared-ports map none of whose names is the
bare string `"[]"`, `list_declared_ports_` returns exactly one
`(name, operator)` pair per declared leaf name, where the name has a
trailing `[]` suffix removed and the operator is the one under which the
name was declared. -/
theorem list_declared_ports_matches_claim_amended
    (d : List (Operator × List String))
    (h : ∀ op_ns ∈ d, ∀ n ∈ op_ns.2, n ≠ "[]") :
    list_declared_ports_ d = list_declared_ports_claimed d := by
  induction d with
  | nil => rfl
  | cons hd tl ih =>
    unfold list_declared_ports_ list_declared_ports_claimed
    simp only [List.flatMap_cons]
    have h1 : hd.2.map (fun fullname => (strip_vector_suffix fullname, hd.1))
        = hd.2.map (fun fullname => (claimed_strip fullname, hd.1)) := by
      apply List.map_congr_left
      intro a ha
      rw [claimed_strip_eq_of_ne a (h hd (List.mem_cons_self hd tl) a ha)]
    rw [h1]
    have h2 := ih (fun op_ns hm n hn => h op_ns (List.mem_cons_of_mem hd hm) n hn)
    unfold list_declared_ports_ list_declared_ports_claimed at h2
    rw [h2]

/-- Witness for the amended C8 at a concrete declared-ports map with one
vector and one scalar name. -/
theorem list_declared_ports_matches_claim_amended_witness :
    list_declared_ports_ [(.F_INIT, ["init[]"]), (.O_F, ["out"])]
      = list_declared_ports_claimed [(.F_INIT, ["init[]"]), (.O_F, ["out"])] :=
  list_declared_ports_matches_claim_amended
    [(.F_INIT, ["init[]"]), (.O_F, ["out"])] (by decide)

/-- Recording a concatenation records the two parts in turn. -/
theorem record_all_append (xs ys : List (ProfileEvent × Int)) (p : Profiler) :
    record_all p (xs ++ ys) = record_all (record_all p xs) ys := by
  induction xs generalizing p with
  | nil => rfl
  | cons en rest ih => simp only [List.cons_append, record_all]; exact ih _

/-- `record_event` below the flush boundary only appends the completed
event. -/
theorem record_event_no_flush (p : Profiler) (e : ProfileEvent) (now : Int)
    (he : p.enabled = true) (hlt : p.events.length + 1 < 100) :
    p.record_event e now = { p with events := p.events ++ [fill_stop e now] } := by
  unfold Profiler.record_event
  rw [he]
  simp only [if_true]
  rw [if_neg]
  · rfl
  · simp only [List.length_append, List.length_cons, List.length_nil]
    omega

/-- `record_event` at the flush boundary appends and then flushes. -/
theorem record_event_flush (p : Profiler) (e : ProfileEvent) (now : Int)
    (he : p.enabled = true) (hge : 99 ≤ p.events.length) :
    p.record_event e now
      = Profiler.flush_ { p with events := p.events ++ [fill_stop e now] } := by
  unfold Profiler.record_event
  rw [he]
  simp only [if_true]
  rw [if_pos]
  · rfl
  · simp only [List.length_append, List.length_cons, List.length_nil]
    omega

/-- While the buffer stays below 100 events, recording only accumulates:
no batch is submitted. -/
theorem record_all_below_boundary (L : List (ProfileEvent × Int)) (p : Profiler)
    (he : p.enabled = true) (hlen : p.events.length + L.length ≤ 99) :
    record_all p L
      = { p with events := p.events ++ L.map (fun en => fill_stop en.1 en.2) } := by
  induction L generalizing p with
  | nil => simp [record_all]
  | cons en rest ih =>
    show record_all (p.record_event en.1 en.2) rest = _
    rw [record_event_no_flush p en.1 en.2 he (by simp at hlen; omega)]
    rw [ih { p with events := p.events ++ [fill_stop en.1 en.2] } he
      (by simp at hlen ⊢; omega)]
    simp [List.append_assoc]

/-- `flush_` on a non-empty buffer submits it as one batch and clears it. -/
theorem flush_nonempty (p : Profiler) (hne : p.events ≠ []) :
    Profiler.flush_ p
      = { p with submitted := p.submitted ++ [p.events], events := [] } := by
  unfold Profiler.flush_
  rw [if_neg]
  intro hh
  exact hne (List.isEmpty_iff.mp hh)

/-- C9: with the profiler enabled, recording the first 99 of 100 events
triggers no submission and leaves 99 buffered events; recording the 100th
triggers exactly one `submit_profile_events` batch holding all 100 events
in insertion order (stop timestamps completed), leaving the buffer empty. -/
theorem profiler_flush_boundary (L : List (ProfileEvent × Int)) (h : L.length = 100) :
    (record_all Profiler.fresh (L.take 99)).submitted = [] ∧
    (record_all Profiler.fresh (L.take 99)).events.length = 99 ∧
    (record_all Profiler.fresh L).submitted
      = [L.map (fun en => fill_stop en.1 en.2)] ∧
    (record_all Profiler.fresh L).events = [] := by
  have ht : (L.take 99).length = 99 := by rw [List.length_take]; omega
  have h99 := record_all_below_boundary (L.take 99) Profiler.fresh rfl
    (by rw [ht]; simp [Profiler.fresh])
  have hdrop : ∃ x, L.drop 99 = [x] := by
    apply List.length_eq_one.mp
    rw [List.length_drop]; omega
  obtain ⟨x, hx⟩ := hdrop
  have hL : L = L.take 99 ++ [x] := by rw [← hx, List.take_append_drop]
  have hrec : record_all Profiler.fresh L
      = (record_all Profiler.fresh (L.take 99)).record_event x.1 x.2 := by
    conv_lhs => rw [hL]
    rw [record_all_append]
    rfl
  have hfin : record_all Profiler.fresh L
      = Profiler.flush_ (Profiler.mk true
          ((L.take 99).map (fun en => fill_stop en.1 en.2) ++ [fill_stop x.1 x.2]) []) := by
    rw [hrec, h99]
    rw [record_event_flush _ x.1 x.2 rfl (by simp [Profiler.fresh]; omega)]
    rfl
  have hmap : (L.take 99).map (fun en => fill_stop en.1 en.2) ++ [fill_stop x.1 x.2]
      = L.map (fun en => fill_stop en.1 en.2) := by
    conv_rhs => rw [hL]
    rw [List.map_append]
    rfl
  refine ⟨by rw [h99]; rfl, by rw [h99]; simp [Profiler.fresh]; omega, ?_, ?_⟩
  · rw [hfin, flush_nonempty _ (by simp)]
    simp only [List.nil_append, hmap]
  · rw [hfin, flush_nonempty _ (by simp)]

/-- One hundred profile events with distinct timestamps. -/
def events100 : List (ProfileEvent × Int) :=
  (List.range 100).map (fun i => (⟨"e", none, none⟩, (i : Int)))

/-- Witness for C9 at a concrete batch of 100 events. -/
theorem profiler_flush_boundary_witness :
    (record_all Profiler.fresh (events100.take 99)).submitted = [] ∧
    (record_all Profiler.fresh (events100.take 99)).events.length = 99 ∧
    (record_all Profiler.fresh events100).submitted
      = [events100.map (fun en => fill_stop en.1 en.2)] ∧
    (record_all Profiler.fresh events100).events = [] :=
  profiler_flush_boundary events100 (by decide)




/-- Looking up in a cache extended on the right. -/
theorem cache_lookup_append_single (c : List (PortKey × Message)) (k : PortKey)
    (m : Message) (k' : PortKey) :
    cache_lookup (c ++ [(k, m)]) k'
      = (match cache_lookup c k' with
         | some v => some v
         | none => if k = k' then some m else none) := by
  induction c with
  | nil => rfl
  | cons a rest ih =>
    simp only [List.cons_append, cache_lookup]
    by_cases ha : a.1 = k'
    · rw [if_pos ha, if_pos ha]
    · rw [if_neg ha, if_neg ha]
      exact ih

/-- Emplacing at one key leaves lookups at other keys unchanged. -/
theorem cache_lookup_emplace_ne (c : List (PortKey × Message)) (k : PortKey)
    (m : Message) (k' : PortKey) (h : k' ≠ k) :
    cache_lookup (cache_emplace c k m) k' = cache_lookup c k' := by
  unfold cache_emplace
  by_cases hs : (cache_lookup c k).isSome = true
  · rw [if_pos hs]
  · rw [if_neg hs, cache_lookup_append_single]
    cases hlk : cache_lookup c k' with
    | some v => rfl
    | none =>
      show (if k = k' then some m else none) = none
      rw [if_neg (fun hh => h hh.symm)]

/-- Emplacing at an absent key makes the lookup return the new message. -/
theorem cache_lookup_emplace_absent (c : List (PortKey × Message)) (k : PortKey)
    (m : Message) (h : cache_lookup c k = none) :
    cache_lookup (cache_emplace c k m) k = some m := by
  unfold cache_emplace
  rw [h]
  simp only [Option.isSome_none, Bool.false_eq_true, if_false]
  rw [cache_lookup_append_single, h]
  show (if k = k then some m else none) = some m
  rw [if_pos rfl]

/-- Emplacing at a present key leaves the cache unchanged. -/
theorem cache_emplace_present (c : List (PortKey × Message)) (k : PortKey)
    (m v : Message) (h : cache_lookup c k = some v) :
    cache_emplace c k m = c := by
  unfold cache_emplace
  rw [h]
  rfl

/-- A successful Communicator receive changes only the pending queue of the
addressed (port, slot). -/
theorem receive_message_some_spec (c : Communicator) (pn : String)
    (sl : Option Int) (dm : Option Message) (m : Message) (c' : Communicator)
    (h : c.receive_message pn sl dm = some (m, c')) :
    c'.ports = c.ports ∧ c'.port_info = c.port_info ∧
    c'.settings_in_connected = c.settings_in_connected ∧
    (∀ p q, ¬ (p = pn ∧ q = sl) → c'.inbox p q = c.inbox p q) := by
  unfold Communicator.receive_message at h
  by_cases hc : c.port_connected pn = true
  · rw [if_pos hc] at h
    cases hi : c.inbox pn sl with
    | nil => rw [hi] at h; exact absurd h (by simp)
    | cons m0 rest =>
      rw [hi] at h
      have h2 := h
      simp only [Option.some.injEq, Prod.mk.injEq] at h2
      obtain ⟨hm, hc'⟩ := h2
      rw [← hc']
      refine ⟨rfl, rfl, rfl, ?_⟩
      intro p q hpq
      show (if p = pn ∧ q = sl then rest else c.inbox p q) = c.inbox p q
      rw [if_neg hpq]
  · rw [if_neg hc] at h
    cases dm with
    | none => exact absurd h (by simp)
    | some d =>
      simp only [Option.some.injEq, Prod.mk.injEq] at h
      rw [← h.2]
      exact ⟨rfl, rfl, rfl, fun p q _ => rfl⟩



/-- What a successful pre-receive step guarantees about fields other than
the overlay. -/
theorem check_compatibility_ok_state (s : InstanceState) (pn : String)
    (ov : Option Settings) (u : Unit) (s' : InstanceState)
    (h : check_compatibility_ s pn ov = .ok u s') : s' = s := by
  cases ov with
  | none =>
    simp only [check_compatibility_, Outcome.ok.injEq] at h
    exact h.2.symm
  | some o =>
    simp only [check_compatibility_] at h
    by_cases he : s.overlay ≠ o
    · rw [if_pos he] at h; exact absurd h (by simp)
    · rw [if_neg he] at h
      simp only [Outcome.ok.injEq] at h
      exact h.2.symm

/-- `apply_overlay_` changes at most the overlay. -/
theorem apply_overlay_fields (s : InstanceState) (m : Message) :
    (apply_overlay_ s m).comm = s.comm ∧
    (apply_overlay_ s m).f_init_cache = s.f_init_cache ∧
    (apply_overlay_ s m).first_run = s.first_run ∧
    (apply_overlay_ s m).is_shut_down = s.is_shut_down ∧
    (apply_overlay_ s m).shutdown_calls = s.shutdown_calls := by
  unfold apply_overlay_
  by_cases ho : s.overlay = []
  · rw [if_pos ho]
    cases m.settings <;> exact ⟨rfl, rfl, rfl, rfl, rfl⟩
  · rw [if_neg ho]
    exact ⟨rfl, rfl, rfl, rfl, rfl⟩

/-- Shape of a successful `pre_receive_`: the Communicator delivered a
message, the cache gained (at most) the key `(port, slot)`, and nothing
else changed besides possibly the overlay. -/
theorem pre_receive_ok_shape (s : InstanceState) (pn : String) (sl : Option Int)
    (ao : Bool) (s' : InstanceState) (h : pre_receive_ s pn sl ao = .ok () s') :
    ∃ msg comm2, s.comm.receive_message pn sl none = some (msg, comm2) ∧
      s'.comm = comm2 ∧
      s'.f_init_cache = cache_emplace s.f_init_cache (pn, sl)
        (if ao then msg.unset_settings else msg) ∧
      s'.first_run = s.first_run ∧
      s'.is_shut_down = s.is_shut_down ∧
      s'.shutdown_calls = s.shutdown_calls := by
  unfold pre_receive_ at h
  cases hr : s.comm.receive_message pn sl none with
  | none => rw [hr] at h; exact absurd h (by simp)
  | some mc =>
    obtain ⟨msg, comm2⟩ := mc
    rw [hr] at h
    refine ⟨msg, comm2, rfl, ?_⟩
    cases ao with
    | false =>
      simp only [Bool.false_eq_true, if_false, Outcome.ok.injEq] at h
      rw [← h.2]
      exact ⟨rfl, rfl, rfl, rfl, rfl⟩
    | true =>
      simp only [if_true] at h
      cases hcc : check_compatibility_ (apply_overlay_ { s with comm := comm2 } msg) pn msg.settings with
      | err e s3 => rw [hcc] at h; exact absurd h (by simp)
      | blocked => rw [hcc] at h; exact absurd h (by simp)
      | ok u s3 =>
        rw [hcc] at h
        have hs3 := check_compatibility_ok_state _ _ _ _ _ hcc
        simp only [Outcome.ok.injEq] at h
        rw [← h.2, hs3]
        have hao := apply_overlay_fields { s with comm := comm2 } msg
        refine ⟨hao.1, ?_, hao.2.2.1, hao.2.2.2.1, hao.2.2.2.2⟩
        rw [hao.2.1]
        rfl


/-- An ok-transition of the pre-receive machinery: the static communicator
data and the run flags are unchanged, and the pending queues and cache
entries at all keys satisfying `ks` are untouched. -/
def preserves (s s' : InstanceState) (ks : PortKey → Prop) : Prop :=
  s'.comm.ports = s.comm.ports ∧
  s'.comm.port_info = s.comm.port_info ∧
  s'.comm.settings_in_connected = s.comm.settings_in_connected ∧
  s'.first_run = s.first_run ∧
  s'.is_shut_down = s.is_shut_down ∧
  s'.shutdown_calls = s.shutdown_calls ∧
  (∀ k : PortKey, ks k → s'.comm.inbox k.1 k.2 = s.comm.inbox k.1 k.2 ∧
    cache_lookup s'.f_init_cache k = cache_lookup s.f_init_cache k)

/-- `preserves` composes. -/
theorem preserves_trans (s s1 s2 : InstanceState) (P Q : PortKey → Prop)
    (h1 : preserves s s1 P) (h2 : preserves s1 s2 Q) :
    preserves s s2 (fun k => P k ∧ Q k) := by
  obtain ⟨a1, b1, c1, d1, e1, f1, g1⟩ := h1
  obtain ⟨a2, b2, c2, d2, e2, f2, g2⟩ := h2
  refine ⟨a2.trans a1, b2.trans b1, c2.trans c1, d2.trans d1, e2.trans e1,
    f2.trans f1, ?_⟩
  intro k hk
  exact ⟨(g2 k hk.2).1.trans (g1 k hk.1).1, (g2 k hk.2).2.trans (g1 k hk.1).2⟩

/-- `pre_receive_` touches only the key `(port, slot)`. -/
theorem pre_receive_preserves (s : InstanceState) (pn : String) (sl : Option Int)
    (ao : Bool) (s' : InstanceState) (h : pre_receive_ s pn sl ao = .ok () s') :
    preserves s s' (fun k => k ≠ (pn, sl)) := by
  obtain ⟨msg, comm2, hr, hcomm, hcache, hfr, hsd, hsc⟩ :=
    pre_receive_ok_shape s pn sl ao s' h
  have hspec := receive_message_some_spec s.comm pn sl none msg comm2 hr
  unfold preserves
  rw [hcomm, hcache]
  refine ⟨hspec.1, hspec.2.1, hspec.2.2.1, hfr, hsd, hsc, ?_⟩
  intro k hk
  constructor
  · exact hspec.2.2.2 k.1 k.2 (fun hh => hk (Prod.ext hh.1 hh.2))
  · exact cache_lookup_emplace_ne s.f_init_cache (pn, sl) _ k hk

/-- The slot loop touches only keys of its port with a listed slot. -/
theorem pre_receive_slots_preserves (pn : String) (ao : Bool) (slots : List Int)
    (s s' : InstanceState) (h : pre_receive_slots pn ao slots s = .ok () s') :
    preserves s s' (fun k => ∀ sl ∈ slots, k ≠ (pn, some sl)) := by
  induction slots generalizing s with
  | nil =>
    simp only [pre_receive_slots, Outcome.ok.injEq] at h
    rw [← h.2]
    exact ⟨rfl, rfl, rfl, rfl, rfl, rfl, fun k _ => ⟨rfl, rfl⟩⟩
  | cons sl rest ih =>
    simp only [pre_receive_slots] at h
    cases hp : pre_receive_ s pn (some sl) ao with
    | err e s1 => rw [hp] at h; exact absurd h (by simp)
    | blocked => rw [hp] at h; exact absurd h (by simp)
    | ok u s1 =>
      rw [hp] at h
      have h1 := pre_receive_preserves s pn (some sl) ao s1 hp
      have h2 := ih s1 h
      have := preserves_trans s s1 s' _ _ h1 h2
      refine ⟨this.1, this.2.1, this.2.2.1, this.2.2.2.1, this.2.2.2.2.1,
        this.2.2.2.2.2.1, ?_⟩
      intro k hk
      exact this.2.2.2.2.2.2 k
        ⟨hk sl (List.mem_cons_self sl rest), fun q hq => hk q (List.mem_cons_of_mem sl hq)⟩

/-- A per-port pre-receive touches only keys of that port. -/
theorem pre_receive_port_preserves (q : String) (ao : Bool)
    (s s' : InstanceState) (h : pre_receive_port q ao s = .ok () s') :
    preserves s s' (fun k => k.1 ≠ q) := by
  unfold pre_receive_port at h
  cases hq : s.comm.port_info q with
  | none =>
    rw [hq] at h
    simp only [Outcome.ok.injEq] at h
    rw [← h.2]
    exact ⟨rfl, rfl, rfl, rfl, rfl, rfl, fun k _ => ⟨rfl, rfl⟩⟩
  | some port =>
    rw [hq] at h
    simp only [] at h
    by_cases hc : (! port.is_connected) = true
    · rw [if_pos hc] at h
      simp only [Outcome.ok.injEq] at h
      rw [← h.2]
      exact ⟨rfl, rfl, rfl, rfl, rfl, rfl, fun k _ => ⟨rfl, rfl⟩⟩
    · rw [if_neg hc] at h
      by_cases hv : (! port.is_vector) = true
      · rw [if_pos hv] at h
        have := pre_receive_preserves s q none ao s' h
        refine ⟨this.1, this.2.1, this.2.2.1, this.2.2.2.1, this.2.2.2.2.1,
          this.2.2.2.2.2.1, ?_⟩
        intro k hk
        exact this.2.2.2.2.2.2 k (fun hh => hk (by rw [hh]))
      · rw [if_neg hv] at h
        cases hp : pre_receive_ s q (some 0) ao with
        | err e s1 => rw [hp] at h; exact absurd h (by simp)
        | blocked => rw [hp] at h; exact absurd h (by simp)
        | ok u s1 =>
          rw [hp] at h
          have h1 := pre_receive_preserves s q (some 0) ao s1 hp
          have h2 := pre_receive_slots_preserves q ao _ s1 s' h
          have := preserves_trans s s1 s' _ _ h1 h2
          refine ⟨this.1, this.2.1, this.2.2.1, this.2.2.2.1, this.2.2.2.2.1,
            this.2.2.2.2.2.1, ?_⟩
          intro k hk
          exact this.2.2.2.2.2.2 k
            ⟨fun hh => hk (by rw [hh]), fun sl _ hh => hk (by rw [hh])⟩

/-- The port loop touches only keys of the listed ports. -/
theorem pre_receive_ports_preserves (ao : Bool) (names : List String)
    (s s' : InstanceState) (h : pre_receive_ports ao names s = .ok () s') :
    preserves s s' (fun k => k.1 ∉ names) := by
  induction names generalizing s with
  | nil =>
    simp only [pre_receive_ports, Outcome.ok.injEq] at h
    rw [← h.2]
    exact ⟨rfl, rfl, rfl, rfl, rfl, rfl, fun k _ => ⟨rfl, rfl⟩⟩
  | cons q rest ih =>
    simp only [pre_receive_ports] at h
    cases hp : pre_receive_port q ao s with
    | err e s1 => rw [hp] at h; exact absurd h (by simp)
    | blocked => rw [hp] at h; exact absurd h (by simp)
    | ok u s1 =>
      rw [hp] at h
      have h1 := pre_receive_port_preserves q ao s s1 hp
      have h2 := ih s1 h
      have := preserves_trans s s1 s' _ _ h1 h2
      refine ⟨this.1, this.2.1, this.2.2.1, this.2.2.2.1, this.2.2.2.2.1,
        this.2.2.2.2.2.1, ?_⟩
      intro k hk
      exact this.2.2.2.2.2.2 k
        ⟨fun hh => hk (by rw [hh]; exact List.mem_cons_self q rest),
         fun hh => hk (List.mem_cons_of_mem q hh)⟩


/-- The port loop over all-disconnected ports is a no-op. -/
theorem pre_receive_ports_skip (ao : Bool) (names : List String)
    (s : InstanceState)
    (hall : ∀ pn ∈ names, port_is_connected s.comm pn = false) :
    pre_receive_ports ao names s = .ok () s := by
  induction names with
  | nil => rfl
  | cons q rest ih =>
    have hq := hall q (List.mem_cons_self q rest)
    have hport : pre_receive_port q ao s = .ok () s := by
      unfold pre_receive_port
      cases hi : s.comm.port_info q with
      | none => rfl
      | some port =>
        unfold port_is_connected at hq
        rw [hi] at hq
        simp only [] at hq
        simp only []
        have hb : (!port.is_connected) = true := by simp [hq]
        rw [if_pos hb]
    simp only [pre_receive_ports, hport]
    exact ih (fun pn hpn => hall pn (List.mem_cons_of_mem q hpn))

/-- `f_init_not_connected_of` only reads the static communicator data. -/
theorem f_init_not_connected_congr (c c' : Communicator)
    (hp : c'.ports = c.ports) (hi : c'.port_info = c.port_info) :
    f_init_not_connected_of c' = f_init_not_connected_of c := by
  unfold f_init_not_connected_of port_is_connected
  rw [hp, hi]

/-- A successful `pre_receive_f_init_` preserves the static communicator
data and the run flags. -/
theorem pre_receive_f_init_preserves (s : InstanceState) (ao : Bool)
    (s' : InstanceState) (h : pre_receive_f_init_ s ao = .ok () s') :
    s'.comm.ports = s.comm.ports ∧ s'.comm.port_info = s.comm.port_info ∧
    s'.comm.settings_in_connected = s.comm.settings_in_connected ∧
    s'.first_run = s.first_run ∧ s'.is_shut_down = s.is_shut_down ∧
    s'.shutdown_calls = s.shutdown_calls := by
  unfold pre_receive_f_init_ at h
  simp only [] at h
  cases hf : find_ports s.comm.ports .F_INIT with
  | none =>
    rw [hf] at h
    simp only [Outcome.ok.injEq] at h
    rw [← h.2]
    exact ⟨rfl, rfl, rfl, rfl, rfl, rfl⟩
  | some names =>
    rw [hf] at h
    simp only [] at h
    have := pre_receive_ports_preserves ao names { s with f_init_cache := [] } s' h
    exact ⟨this.1, this.2.1, this.2.2.1, this.2.2.2.1, this.2.2.2.2.1,
      this.2.2.2.2.2.1⟩

/-- When no F_INIT port is connected, `pre_receive_f_init_` just clears the
cache. -/
theorem pre_receive_f_init_all_disconnected (s : InstanceState) (ao : Bool)
    (hnc : f_init_not_connected_of s.comm = true) :
    pre_receive_f_init_ s ao = .ok () { s with f_init_cache := [] } := by
  unfold pre_receive_f_init_
  unfold f_init_not_connected_of at hnc
  simp only []
  cases hf : find_ports s.comm.ports .F_INIT with
  | none => rfl
  | some names =>
    rw [hf] at hnc
    simp only [] at hnc
    show pre_receive_ports ao names { s with f_init_cache := [] }
      = .ok () { s with f_init_cache := [] }
    apply pre_receive_ports_skip
    intro pn hpn
    have := List.all_eq_true.mp hnc pn hpn
    simp only [Bool.not_eq_eq_eq_not, Bool.not_true] at this
    exact this

/-- If every F_INIT port is still disconnected after a successful
`pre_receive_f_init_`, the cache it produced is empty. -/
theorem pre_receive_f_init_cache_empty (s : InstanceState) (ao : Bool)
    (s2 : InstanceState) (h : pre_receive_f_init_ s ao = .ok () s2)
    (hnc : f_init_not_connected_of s2.comm = true) :
    s2.f_init_cache = [] := by
  have hpres := pre_receive_f_init_preserves s ao s2 h
  have hnc' : f_init_not_connected_of s.comm = true := by
    rw [← f_init_not_connected_congr s.comm s2.comm hpres.1 hpres.2.1]
    exact hnc
  rw [pre_receive_f_init_all_disconnected s ao hnc'] at h
  simp only [Outcome.ok.injEq] at h
  rw [← h.2]


/-- With no settings-in connection, `receive_settings_` returns true after
installing the (empty) overlay from the default message. -/
theorem receive_settings_no_conn (s : InstanceState)
    (h : s.comm.settings_in_connected = false) :
    receive_settings_ s = .ok true { s with overlay := [] } := by
  unfold receive_settings_ Communicator.receive_message
  have hpc : s.comm.port_connected "muscle_settings_in" = false := by
    unfold Communicator.port_connected
    rw [if_pos rfl]
    exact h
  rw [hpc]
  rfl

/-- One `reuse_instance` call on an instance with neither an F_INIT nor a
settings-in connection: it returns `first_run_` and consumes it. -/
theorem reuse_no_upstream (s : InstanceState) (ao : Bool)
    (h1 : f_init_not_connected_of s.comm = true)
    (h2 : s.comm.settings_in_connected = false) :
    reuse_instance s ao
      = .ok s.first_run { s with overlay := [], f_init_cache := [], first_run := false } := by
  unfold reuse_instance
  rw [receive_settings_no_conn s h2]
  simp only []
  have hpre : pre_receive_f_init_ { s with overlay := [] } ao
      = .ok () { s with overlay := [], f_init_cache := [] } :=
    pre_receive_f_init_all_disconnected { s with overlay := ([] : Settings) } ao h1
  rw [hpre]
  simp only []
  have hcond : (f_init_not_connected_of s.comm && ! s.comm.settings_in_connected) = true := by
    rw [h1, h2]
    rfl
  rw [if_pos hcond]


/-- C4: with no connected F_INIT port and no settings-in connection, the
first `reuse_instance` call returns true and every subsequent call returns
false: over any run of calls, the collected results are one `true` followed
by only `false`. -/
theorem reuse_exactly_once_without_upstream (s : InstanceState) (ao : Bool)
    (rest : List Bool) (h1 : f_init_not_connected_of s.comm = true)
    (h2 : s.comm.settings_in_connected = false) (h3 : s.first_run = true) :
    (run_reuse s (ao :: rest)).map Prod.fst
      = some (true :: List.replicate rest.length false) := by
  have haux : ∀ (l : List Bool) (t : InstanceState),
      f_init_not_connected_of t.comm = true →
      t.comm.settings_in_connected = false → t.first_run = false →
      (run_reuse t l).map Prod.fst = some (List.replicate l.length false) := by
    intro l
    induction l with
    | nil => intro t _ _ _; rfl
    | cons ao2 l2 ih =>
      intro t ht1 ht2 ht3
      simp only [run_reuse]
      rw [reuse_no_upstream t ao2 ht1 ht2]
      show Option.map Prod.fst (Option.map
          (fun (p : List Bool × InstanceState) => (t.first_run :: p.1, p.2))
          (run_reuse { t with overlay := [], f_init_cache := [], first_run := false } l2))
        = some (List.replicate (ao2 :: l2).length false)
      have hih := ih { t with overlay := [], f_init_cache := [], first_run := false }
        ht1 ht2 rfl
      cases hrr : run_reuse { t with overlay := [], f_init_cache := [], first_run := false } l2 with
      | none => rw [hrr] at hih; exact absurd hih (by simp)
      | some pr =>
        rw [hrr] at hih
        simp at hih
        simp [ht3, hih, List.replicate_succ]
  simp only [run_reuse]
  rw [reuse_no_upstream s ao h1 h2]
  show Option.map Prod.fst (Option.map
      (fun (p : List Bool × InstanceState) => (s.first_run :: p.1, p.2))
      (run_reuse { s with overlay := [], f_init_cache := [], first_run := false } rest))
    = some (true :: List.replicate rest.length false)
  have hih := haux rest { s with overlay := [], f_init_cache := [], first_run := false }
    h1 h2 rfl
  cases hrr : run_reuse { s with overlay := [], f_init_cache := [], first_run := false } rest with
  | none => rw [hrr] at hih; exact absurd hih (by simp)
  | some pr =>
    rw [hrr] at hih
    simp at hih
    simp [h3, hih]


/-- C3: whenever a `reuse_instance` call completes normally and the F_INIT
cache it leaves behind holds a `ClosePort` payload in any entry, the call
returned false — whatever `receive_settings_` produced and whatever the
state of the settings-in connection. -/
theorem reuse_false_on_close_port (s : InstanceState) (ao : Bool)
    (hclose : (reuse_instance s ao).state?.map
        (fun t => t.f_init_cache.any (fun kv => is_close_port kv.2.data)) = some true) :
    (reuse_instance s ao).result? = some false := by
  cases hr : reuse_instance s ao with
  | blocked => rw [hr] at hclose; exact absurd hclose (by simp [Outcome.state?])
  | err e s1 => rw [hr] at hclose; exact absurd hclose (by simp [Outcome.state?])
  | ok b s1 =>
    rw [hr] at hclose
    simp only [Outcome.state?, Option.map_some', Option.some.injEq] at hclose
    suffices hb : b = false by rw [hb]; rfl
    unfold reuse_instance at hr
    cases hs : receive_settings_ s with
    | err e2 t => rw [hs] at hr; exact absurd hr (by simp)
    | blocked => rw [hs] at hr; exact absurd hr (by simp)
    | ok dr t1 =>
      rw [hs] at hr
      simp only [] at hr
      cases hp : pre_receive_f_init_ t1 ao with
      | err e2 t => rw [hp] at hr; exact absurd hr (by simp)
      | blocked => rw [hp] at hr; exact absurd hr (by simp)
      | ok u t2 =>
        rw [hp] at hr
        simp only [] at hr
        by_cases hcond : (f_init_not_connected_of t2.comm
            && ! t2.comm.settings_in_connected) = true
        · rw [if_pos hcond] at hr
          simp only [Outcome.ok.injEq] at hr
          exfalso
          have hb2 : f_init_not_connected_of t2.comm = true :=
            ((Bool.and_eq_true _ _).mp hcond).1
          have hempty := pre_receive_f_init_cache_empty t1 ao t2 hp hb2
          rw [← hr.2] at hclose
          simp only [] at hclose
          rw [hempty] at hclose
          exact absurd hclose (by simp)
        · rw [if_neg hcond] at hr
          simp only [Outcome.ok.injEq] at hr
          rw [← hr.2] at hclose
          rw [← hr.1, if_pos hclose]


/-- A pending `ClosePort` message. -/
def msg_close : Message := ⟨0, none, .close_port, none⟩

/-- A communicator whose connected F_INIT port will deliver `ClosePort`. -/
def comm3 : Communicator :=
  ⟨[(.F_INIT, ["init_in"])],
   fun p => if p = "init_in" then some port_f_init_conn else none,
   false,
   fun p _ => if p = "init_in" then [msg_close] else []⟩

/-- A fresh instance state in front of `comm3`. -/
def state3 : InstanceState := ⟨comm3, [], true, [], false, 0⟩

/-- Witness for C3: a concrete reuse iteration that pre-receives
`ClosePort` and returns false. -/
theorem reuse_false_on_close_port_witness :
    (reuse_instance state3 false).result? = some false :=
  reuse_false_on_close_port state3 false (by decide)

/-- A communicator with no ports and no settings-in connection. -/
def comm4 : Communicator := ⟨[], fun _ => none, false, fun _ _ => []⟩

/-- A fresh instance state in front of `comm4`. -/
def state4 : InstanceState := ⟨comm4, [], true, [], false, 0⟩

/-- Witness for C4: three reuse calls on an instance with no upstream
source return true, false, false. -/
theorem reuse_exactly_once_without_upstream_witness :
    (run_reuse state4 [true, false, true]).map Prod.fst
      = some (true :: List.replicate 2 false) :=
  reuse_exactly_once_without_upstream state4 true [false, true] (by decide) rfl rfl


/-- The state after `shutdown_`: flag set, one more recorded call. -/
def shut_after (s s' : InstanceState) : Prop :=
  s'.is_shut_down = true ∧ s'.shutdown_calls = s.shutdown_calls + 1

/-- `shutdown_` sets the flag and records the call. -/
theorem shutdown_shut (s : InstanceState) : shut_after s (shutdown_ s) := by
  unfold shutdown_ shut_after
  simp only []
  by_cases h : s.is_shut_down = true
  · rw [if_pos h]
    exact ⟨h, rfl⟩
  · rw [if_neg h]
    exact ⟨rfl, rfl⟩

/-- A failing `check_port_` has called `shutdown_`. -/
theorem check_port_err (s : InstanceState) (pn : String) (e : MuscleError)
    (s' : InstanceState) (h : check_port_ s pn = .err e s') : shut_after s s' := by
  unfold check_port_ at h
  by_cases hc : s.comm.port_exists pn = true
  · rw [if_pos hc] at h; exact absurd h (by simp)
  · rw [if_neg hc] at h
    simp only [Outcome.err.injEq] at h
    rw [← h.2]
    exact shutdown_shut s

/-- A passing `check_port_` changes nothing. -/
theorem check_port_ok (s : InstanceState) (pn : String) (u : Unit)
    (s' : InstanceState) (h : check_port_ s pn = .ok u s') : s' = s := by
  unfold check_port_ at h
  by_cases hc : s.comm.port_exists pn = true
  · rw [if_pos hc] at h
    simp only [Outcome.ok.injEq] at h
    exact h.2.symm
  · rw [if_neg hc] at h; exact absurd h (by simp)

/-- A failing `check_compatibility_` has called `shutdown_`. -/
theorem check_compatibility_err (s : InstanceState) (pn : String)
    (ov : Option Settings) (e : MuscleError) (s' : InstanceState)
    (h : check_compatibility_ s pn ov = .err e s') : shut_after s s' := by
  cases ov with
  | none => exact absurd h (by simp [check_compatibility_])
  | some o =>
    simp only [check_compatibility_] at h
    by_cases he : s.overlay ≠ o
    · rw [if_pos he] at h
      simp only [Outcome.err.injEq] at h
      rw [← h.2]
      exact shutdown_shut s
    · rw [if_neg he] at h; exact absurd h (by simp)

/-- A failing `receive_settings_` has called `shutdown_`. -/
theorem receive_settings_err (s : InstanceState) (e : MuscleError)
    (s' : InstanceState) (h : receive_settings_ s = .err e s') :
    shut_after s s' := by
  unfold receive_settings_ at h
  simp only [] at h
  cases hr : s.comm.receive_message "muscle_settings_in" none
      (some ⟨0, none, .settings [], some []⟩) with
  | none => rw [hr] at h; exact absurd h (by simp)
  | some mc =>
    obtain ⟨msg, comm2⟩ := mc
    rw [hr] at h
    simp only [] at h
    cases hd : msg.data with
    | close_port => rw [hd] at h; exact absurd h (by simp [is_close_port])
    | settings ds => rw [hd] at h; exact absurd h (by simp [is_close_port])
    | user v =>
      rw [hd] at h
      simp only [is_close_port, Bool.false_eq_true, if_false,
        Outcome.err.injEq] at h
      rw [← h.2]
      exact ⟨(shutdown_shut _).1, (shutdown_shut _).2⟩

/-- A passing `receive_settings_` leaves the flags alone. -/
theorem receive_settings_ok (s : InstanceState) (b : Bool) (s' : InstanceState)
    (h : receive_settings_ s = .ok b s') :
    s'.is_shut_down = s.is_shut_down ∧ s'.shutdown_calls = s.shutdown_calls := by
  unfold receive_settings_ at h
  simp only [] at h
  cases hr : s.comm.receive_message "muscle_settings_in" none
      (some ⟨0, none, .settings [], some []⟩) with
  | none => rw [hr] at h; exact absurd h (by simp)
  | some mc =>
    obtain ⟨msg, comm2⟩ := mc
    rw [hr] at h
    simp only [] at h
    cases hd : msg.data with
    | close_port =>
      rw [hd] at h
      simp only [is_close_port, if_true, Outcome.ok.injEq] at h
      rw [← h.2]
      exact ⟨rfl, rfl⟩
    | settings ds =>
      rw [hd] at h
      simp only [is_close_port, Bool.false_eq_true, if_false,
        Outcome.ok.injEq] at h
      rw [← h.2]
      exact ⟨rfl, rfl⟩
    | user v =>
      rw [hd] at h
      simp only [is_close_port, Bool.false_eq_true, if_false] at h
      exact absurd h (by simp)

/-- A failing `pre_receive_` has called `shutdown_`. -/
theorem pre_receive_err (s : InstanceState) (pn : String) (sl : Option Int)
    (ao : Bool) (e : MuscleError) (s' : InstanceState)
    (h : pre_receive_ s pn sl ao = .err e s') : shut_after s s' := by
  unfold pre_receive_ at h
  cases hr : s.comm.receive_message pn sl none with
  | none => rw [hr] at h; exact absurd h (by simp)
  | some mc =>
    obtain ⟨msg, comm2⟩ := mc
    rw [hr] at h
    simp only [] at h
    cases ao with
    | false => exact absurd h (by simp)
    | true =>
      simp only [if_true] at h
      cases hcc : check_compatibility_ (apply_overlay_ { s with comm := comm2 } msg)
          pn msg.settings with
      | ok u t => rw [hcc] at h; exact absurd h (by simp)
      | blocked => rw [hcc] at h; exact absurd h (by simp)
      | err e2 t =>
        rw [hcc] at h
        simp only [Outcome.err.injEq] at h
        have hca := check_compatibility_err _ _ _ _ _ hcc
        have hao := apply_overlay_fields { s with comm := comm2 } msg
        rw [← h.2]
        exact ⟨hca.1, by rw [hca.2, hao.2.2.2.2]⟩

/-- A failing slot loop has called `shutdown_`. -/
theorem pre_receive_slots_err (pn : String) (ao : Bool) (slots : List Int)
    (s : InstanceState) (e : MuscleError) (s' : InstanceState)
    (h : pre_receive_slots pn ao slots s = .err e s') : shut_after s s' := by
  induction slots generalizing s with
  | nil => exact absurd h (by simp [pre_receive_slots])
  | cons sl rest ih =>
    simp only [pre_receive_slots] at h
    cases hp : pre_receive_ s pn (some sl) ao with
    | err e2 t =>
      rw [hp] at h
      simp only [Outcome.err.injEq] at h
      rw [← h.2]
      exact pre_receive_err s pn (some sl) ao e2 t hp
    | blocked => rw [hp] at h; exact absurd h (by simp)
    | ok u t =>
      rw [hp] at h
      have hsh := ih t h
      have hpre := pre_receive_ok_shape s pn (some sl) ao t hp
      obtain ⟨msg, comm2, _, _, _, _, hsd, hsc⟩ := hpre
      exact ⟨hsh.1, by rw [hsh.2, hsc]⟩

/-- A failing per-port pre-receive has called `shutdown_`. -/
theorem pre_receive_port_err (q : String) (ao : Bool) (s : InstanceState)
    (e : MuscleError) (s' : InstanceState)
    (h : pre_receive_port q ao s = .err e s') : shut_after s s' := by
  unfold pre_receive_port at h
  cases hq : s.comm.port_info q with
  | none => rw [hq] at h; exact absurd h (by simp)
  | some port =>
    rw [hq] at h
    simp only [] at h
    by_cases hc : (! port.is_connected) = true
    · rw [if_pos hc] at h; exact absurd h (by simp)
    · rw [if_neg hc] at h
      by_cases hv : (! port.is_vector) = true
      · rw [if_pos hv] at h
        exact pre_receive_err s q none ao e s' h
      · rw [if_neg hv] at h
        cases hp : pre_receive_ s q (some 0) ao with
        | err e2 t =>
          rw [hp] at h
          simp only [Outcome.err.injEq] at h
          rw [← h.2]
          exact pre_receive_err s q (some 0) ao e2 t hp
        | blocked => rw [hp] at h; exact absurd h (by simp)
        | ok u t =>
          rw [hp] at h
          have hsh := pre_receive_slots_err q ao _ t e s' h
          have hpre := pre_receive_ok_shape s q (some 0) ao t hp
          obtain ⟨msg, comm2, _, _, _, _, hsd, hsc⟩ := hpre
          exact ⟨hsh.1, by rw [hsh.2, hsc]⟩

/-- A failing port loop has called `shutdown_`. -/
theorem pre_receive_ports_err (ao : Bool) (names : List String)
    (s : InstanceState) (e : MuscleError) (s' : InstanceState)
    (h : pre_receive_ports ao names s = .err e s') : shut_after s s' := by
  induction names generalizing s with
  | nil => exact absurd h (by simp [pre_receive_ports])
  | cons q rest ih =>
    simp only [pre_receive_ports] at h
    cases hp : pre_receive_port q ao s with
    | err e2 t =>
      rw [hp] at h
      simp only [Outcome.err.injEq] at h
      rw [← h.2]
      exact pre_receive_port_err q ao s e2 t hp
    | blocked => rw [hp] at h; exact absurd h (by simp)
    | ok u t =>
      rw [hp] at h
      have hsh := ih t h
      have hpp := pre_receive_port_preserves q ao s t hp
      exact ⟨hsh.1, by rw [hsh.2, hpp.2.2.2.2.2.1]⟩

/-- A failing `pre_receive_f_init_` has called `shutdown_`. -/
theorem pre_receive_f_init_err (s : InstanceState) (ao : Bool)
    (e : MuscleError) (s' : InstanceState)
    (h : pre_receive_f_init_ s ao = .err e s') : shut_after s s' := by
  unfold pre_receive_f_init_ at h
  simp only [] at h
  cases hf : find_ports s.comm.ports .F_INIT with
  | none => rw [hf] at h; exact absurd h (by simp)
  | some names =>
    rw [hf] at h
    simp only [] at h
    exact pre_receive_ports_err ao names { s with f_init_cache := [] } e s' h


/-- A failing `receive_message_` has called `shutdown_`. -/
theorem receive_message_err (s : InstanceState) (pn : String) (sl : Option Int)
    (d : Option Message) (ws : Bool) (e : MuscleError) (s' : InstanceState)
    (h : receive_message_ s pn sl d ws = .err e s') : shut_after s s' := by
  unfold receive_message_ at h
  cases hcp : check_port_ s pn with
  | err e1 t =>
    rw [hcp] at h
    simp only [Outcome.err.injEq] at h
    rw [← h.2]
    exact check_port_err s pn e1 t hcp
  | blocked => rw [hcp] at h; exact absurd h (by simp)
  | ok u t =>
    rw [hcp] at h
    have ht := check_port_ok s pn u t hcp
    rw [ht] at h
    simp only [] at h
    cases hq : s.comm.port_info pn with
    | none => rw [hq] at h; exact absurd h (by simp)
    | some port =>
      rw [hq] at h
      simp only [] at h
      by_cases hop : (port.oper = Operator.F_INIT)
      · rw [if_pos hop] at h
        cases hcl : cache_lookup s.f_init_cache (pn, sl) with
        | some msg =>
          rw [hcl] at h
          simp only [] at h
          by_cases hws : (ws && ! msg.has_settings) = true
          · rw [if_pos hws] at h
            simp only [Outcome.err.injEq] at h
            rw [← h.2]
            exact ⟨(shutdown_shut _).1, (shutdown_shut _).2⟩
          · rw [if_neg hws] at h; exact absurd h (by simp)
        | none =>
          rw [hcl] at h
          simp only [] at h
          by_cases hc : port.is_connected = true
          · rw [if_pos hc] at h
            simp only [Outcome.err.injEq] at h
            rw [← h.2]
            exact shutdown_shut s
          · rw [if_neg hc] at h
            cases d with
            | some dm => exact absurd h (by simp)
            | none =>
              simp only [Outcome.err.injEq] at h
              rw [← h.2]
              exact shutdown_shut s
      · rw [if_neg hop] at h
        cases hr : s.comm.receive_message pn sl d with
        | none => rw [hr] at h; exact absurd h (by simp)
        | some mc =>
          obtain ⟨msg, comm2⟩ := mc
          rw [hr] at h
          simp only [] at h
          by_cases hcl : (port.is_connected && ! port.is_open sl) = true
          · rw [if_pos hcl] at h
            simp only [Outcome.err.injEq] at h
            rw [← h.2]
            exact ⟨(shutdown_shut _).1, (shutdown_shut _).2⟩
          · rw [if_neg hcl] at h
            by_cases hcw : (port.is_connected && ! ws) = true
            · rw [if_pos hcw] at h
              cases hcc : check_compatibility_ { s with comm := comm2 } pn msg.settings with
              | ok u2 t2 => rw [hcc] at h; exact absurd h (by simp)
              | blocked => rw [hcc] at h; exact absurd h (by simp)
              | err e2 t2 =>
                rw [hcc] at h
                simp only [Outcome.err.injEq] at h
                rw [← h.2]
                have := check_compatibility_err _ _ _ _ _ hcc
                exact ⟨this.1, this.2⟩
            · rw [if_neg hcw] at h
              exact absurd h (by simp)

/-- `pre_receive_f_init_` leaves the flags alone on success. -/
theorem pre_receive_f_init_flags (s : InstanceState) (ao : Bool)
    (s' : InstanceState) (h : pre_receive_f_init_ s ao = .ok () s') :
    s'.is_shut_down = s.is_shut_down ∧ s'.shutdown_calls = s.shutdown_calls := by
  have := pre_receive_f_init_preserves s ao s' h
  exact ⟨this.2.2.2.2.1, this.2.2.2.2.2⟩

/-- A failing `reuse_instance` has called `shutdown_`. -/
theorem reuse_instance_err (s : InstanceState) (ao : Bool) (e : MuscleError)
    (s' : InstanceState) (h : reuse_instance s ao = .err e s') :
    shut_after s s' := by
  unfold reuse_instance at h
  cases hs : receive_settings_ s with
  | err e2 t =>
    rw [hs] at h
    simp only [Outcome.err.injEq] at h
    rw [← h.2]
    exact receive_settings_err s e2 t hs
  | blocked => rw [hs] at h; exact absurd h (by simp)
  | ok dr t1 =>
    rw [hs] at h
    simp only [] at h
    have hflags := receive_settings_ok s dr t1 hs
    cases hp : pre_receive_f_init_ t1 ao with
    | err e2 t2 =>
      rw [hp] at h
      simp only [Outcome.err.injEq] at h
      rw [← h.2]
      have := pre_receive_f_init_err t1 ao e2 t2 hp
      exact ⟨this.1, by rw [this.2, hflags.2]⟩
    | blocked => rw [hp] at h; exact absurd h (by simp)
    | ok u t2 =>
      rw [hp] at h
      simp only [] at h
      by_cases hcond : (f_init_not_connected_of t2.comm
          && ! t2.comm.settings_in_connected) = true
      · rw [if_pos hcond] at h; exact absurd h (by simp)
      · rw [if_neg hcond] at h; exact absurd h (by simp)

/-- C7: every user-visible failure raised by the receive dispatch, the
settings receive, the reuse loop, or the port check leaves a state in which
`shutdown_` has run (the flag is set and exactly one shutdown call was
recorded) before the exception propagates. -/
theorem user_failures_shutdown_first (s : InstanceState) (pn : String)
    (sl : Option Int) (d : Option Message) (ws ao : Bool) :
    (∀ e t, receive_message_ s pn sl d ws = .err e t →
      t.is_shut_down = true ∧ t.shutdown_calls = s.shutdown_calls + 1) ∧
    (∀ e t, receive_settings_ s = .err e t →
      t.is_shut_down = true ∧ t.shutdown_calls = s.shutdown_calls + 1) ∧
    (∀ e t, reuse_instance s ao = .err e t →
      t.is_shut_down = true ∧ t.shutdown_calls = s.shutdown_calls + 1) ∧
    (∀ e t, check_port_ s pn = .err e t →
      t.is_shut_down = true ∧ t.shutdown_calls = s.shutdown_calls + 1) := by
  refine ⟨?_, ?_, ?_, ?_⟩
  · intro e t h
    exact receive_message_err s pn sl d ws e t h
  · intro e t h
    exact receive_settings_err s e t h
  · intro e t h
    exact reuse_instance_err s ao e t h
  · intro e t h
    exact check_port_err s pn e t h

/-- Witness for C7: a receive on an unknown port fails after running
`shutdown_` exactly once. -/
theorem user_failures_shutdown_first_witness :
    (shutdown_ state4).is_shut_down = true ∧
      (shutdown_ state4).shutdown_calls = state4.shutdown_calls + 1 :=
  (user_failures_shutdown_first state4 "nope" none none false false).1
    (.logic_error (.port_does_not_exist "nope")) (shutdown_ state4) rfl


/-- A Communicator receive without default succeeded: the port delivered
the head of its pending queue and the queue advanced. -/
theorem receive_message_none_default (c : Communicator) (pn : String)
    (sl : Option Int) (m : Message) (c' : Communicator)
    (h : c.receive_message pn sl none = some (m, c')) :
    ∃ rest, c.inbox pn sl = m :: rest ∧ c'.inbox pn sl = rest := by
  unfold Communicator.receive_message at h
  by_cases hc : c.port_connected pn = true
  · rw [if_pos hc] at h
    cases hi : c.inbox pn sl with
    | nil => rw [hi] at h; exact absurd h (by simp)
    | cons m0 r =>
      rw [hi] at h
      simp only [Option.some.injEq, Prod.mk.injEq] at h
      refine ⟨r, ?_, ?_⟩
      · rw [h.1]
      · rw [← h.2]
        show (if pn = pn ∧ sl = sl then r else c.inbox pn sl) = r
        rw [if_pos ⟨rfl, rfl⟩]
  · rw [if_neg hc] at h
    exact absurd h (by simp)

/-- Splitting the port loop at a list append. -/
theorem pre_receive_ports_append_inv (ao : Bool) (l1 l2 : List String)
    (s s' : InstanceState)
    (h : pre_receive_ports ao (l1 ++ l2) s = .ok () s') :
    ∃ sm, pre_receive_ports ao l1 s = .ok () sm ∧
      pre_receive_ports ao l2 sm = .ok () s' := by
  induction l1 generalizing s with
  | nil => exact ⟨s, rfl, h⟩
  | cons q rest ih =>
    simp only [List.cons_append, pre_receive_ports] at h ⊢
    cases hp : pre_receive_port q ao s with
    | err e t => rw [hp] at h; exact absurd h (by simp)
    | blocked => rw [hp] at h; exact absurd h (by simp)
    | ok u t =>
      rw [hp] at h
      obtain ⟨sm, h1, h2⟩ := ih t h
      exact ⟨sm, h1, h2⟩

/-- Splitting the port loop at its head. -/
theorem pre_receive_ports_cons_inv (ao : Bool) (q : String) (rest : List String)
    (s s' : InstanceState)
    (h : pre_receive_ports ao (q :: rest) s = .ok () s') :
    ∃ sm, pre_receive_port q ao s = .ok () sm ∧
      pre_receive_ports ao rest sm = .ok () s' := by
  simp only [pre_receive_ports] at h
  cases hp : pre_receive_port q ao s with
  | err e t => rw [hp] at h; exact absurd h (by simp)
  | blocked => rw [hp] at h; exact absurd h (by simp)
  | ok u t =>
    rw [hp] at h
    exact ⟨t, rfl, h⟩

/-- Splitting the slot loop at its head. -/
theorem pre_receive_slots_cons_inv (pn : String) (ao : Bool) (sl : Int)
    (rest : List Int) (s s' : InstanceState)
    (h : pre_receive_slots pn ao (sl :: rest) s = .ok () s') :
    ∃ sm, pre_receive_ s pn (some sl) ao = .ok () sm ∧
      pre_receive_slots pn ao rest sm = .ok () s' := by
  simp only [pre_receive_slots] at h
  cases hp : pre_receive_ s pn (some sl) ao with
  | err e t => rw [hp] at h; exact absurd h (by simp)
  | blocked => rw [hp] at h; exact absurd h (by simp)
  | ok u t =>
    rw [hp] at h
    exact ⟨t, rfl, h⟩

/-- A successful per-port pre-receive of a connected vector port is the
slot-0 receive followed by the per-slot loop. -/
theorem pre_receive_port_vector_inv (q : String) (ao : Bool) (port : Port)
    (s s' : InstanceState) (hq : s.comm.port_info q = some port)
    (hconn : port.is_connected = true) (hvec : port.is_vector = true)
    (h : pre_receive_port q ao s = .ok () s') :
    ∃ sm, pre_receive_ s q (some 0) ao = .ok () sm ∧
      pre_receive_slots q ao ((List.range port.length).map Int.ofNat) sm
        = .ok () s' := by
  unfold pre_receive_port at h
  rw [hq] at h
  simp only [] at h
  rw [if_neg (by rw [hconn]; simp)] at h
  rw [if_neg (by rw [hvec]; simp)] at h
  cases hp : pre_receive_ s q (some 0) ao with
  | err e t => rw [hp] at h; exact absurd h (by simp)
  | blocked => rw [hp] at h; exact absurd h (by simp)
  | ok u t =>
    rw [hp] at h
    exact ⟨t, rfl, h⟩


/-- C10: for a connected vector F_INIT port, `pre_receive_f_init_` receives
on slot 0 twice — once before reading the port length and once more as the
first step of the per-slot loop — and because the cache emplace does not
overwrite an existing key, the message cached under `port[0]` (and later
served to the user's receive) is the first of the two; the second is
consumed from the queue and discarded. -/
theorem vector_f_init_slot_zero_first_message_wins
    (s : InstanceState) (pn : String) (port : Port) (l1 l2 : List String)
    (ao : Bool) (m1 m2 : Message) (rest : List Message)
    (hports : find_ports s.comm.ports .F_INIT = some (l1 ++ pn :: l2))
    (hl1 : pn ∉ l1) (hl2 : pn ∉ l2)
    (hinfo : s.comm.port_info pn = some port)
    (hconn : port.is_connected = true)
    (hvec : port.is_vector = true)
    (hlen : 1 ≤ port.length)
    (hinbox : s.comm.inbox pn (some 0) = m1 :: m2 :: rest)
    (hok : (pre_receive_f_init_ s ao).state?.isSome = true) :
    (pre_receive_f_init_ s ao).state?.map
        (fun t => (cache_lookup t.f_init_cache (pn, some 0),
          t.comm.inbox pn (some 0)))
      = some (some (if ao then m1.unset_settings else m1), rest) := by
  cases ho : pre_receive_f_init_ s ao with
  | err e t => rw [ho] at hok; exact absurd hok (by simp [Outcome.state?])
  | blocked => rw [ho] at hok; exact absurd hok (by simp [Outcome.state?])
  | ok u s' =>
    simp only [Outcome.state?, Option.map_some', Option.some.injEq, Prod.mk.injEq]
    unfold pre_receive_f_init_ at ho
    simp only [] at ho
    rw [hports] at ho
    simp only [] at ho
    obtain ⟨sm1, hA, hB⟩ :=
      pre_receive_ports_append_inv ao l1 (pn :: l2) { s with f_init_cache := [] } s' ho
    have hP1 := pre_receive_ports_preserves ao l1 { s with f_init_cache := [] } sm1 hA
    have hU1 := hP1.2.2.2.2.2.2 ((pn, some 0) : PortKey) hl1
    simp only [] at hU1
    have hq1 : sm1.comm.port_info pn = some port := by
      rw [hP1.2.1]
      exact hinfo
    have hsm1in : sm1.comm.inbox pn (some 0) = m1 :: m2 :: rest := by
      rw [hU1.1]
      exact hinbox
    have hnone : cache_lookup sm1.f_init_cache (pn, some 0) = none := by
      rw [hU1.2]
      rfl
    obtain ⟨t1, hC, hD⟩ := pre_receive_ports_cons_inv ao pn l2 sm1 s' hB
    obtain ⟨t0, hE, hF⟩ := pre_receive_port_vector_inv pn ao port sm1 t1 hq1 hconn hvec hC
    obtain ⟨msg, comm2, hr0, hcomm0, hcache0, hx1, hx2, hx3⟩ :=
      pre_receive_ok_shape sm1 pn (some 0) ao t0 hE
    obtain ⟨r0, hin0, hout0⟩ :=
      receive_message_none_default sm1.comm pn (some 0) msg comm2 hr0
    rw [hsm1in] at hin0
    simp only [List.cons.injEq] at hin0
    have ht0c : cache_lookup t0.f_init_cache (pn, some 0)
        = some (if ao then msg.unset_settings else msg) := by
      rw [hcache0]
      exact cache_lookup_emplace_absent _ _ _ hnone
    have ht0in : t0.comm.inbox pn (some 0) = m2 :: rest := by
      rw [hcomm0, hout0, ← hin0.2]
    obtain ⟨k, hk⟩ : ∃ k, port.length = k + 1 := ⟨port.length - 1, by omega⟩
    have hslots : (List.range port.length).map Int.ofNat
        = (0 : Int) :: (List.range k).map (fun j => ((j + 1 : Nat) : Int)) := by
      rw [hk, List.range_succ_eq_map, List.map_cons, List.map_map]
      rfl
    rw [hslots] at hF
    obtain ⟨t2, hG, hH⟩ := pre_receive_slots_cons_inv pn ao 0 _ t0 t1 hF
    obtain ⟨msg2, comm3, hr2, hcomm2, hcache2, hy1, hy2, hy3⟩ :=
      pre_receive_ok_shape t0 pn (some 0) ao t2 hG
    obtain ⟨r2, hin2, hout2⟩ :=
      receive_message_none_default t0.comm pn (some 0) msg2 comm3 hr2
    rw [ht0in] at hin2
    simp only [List.cons.injEq] at hin2
    have ht2c : t2.f_init_cache = t0.f_init_cache := by
      rw [hcache2]
      exact cache_emplace_present _ _ _ _ ht0c
    have ht2in : t2.comm.inbox pn (some 0) = rest := by
      rw [hcomm2, hout2, ← hin2.2]
    have hP2 := pre_receive_slots_preserves pn ao
      ((List.range k).map (fun j => ((j + 1 : Nat) : Int))) t2 t1 hH
    have hU2 := hP2.2.2.2.2.2.2 ((pn, some 0) : PortKey) ?hne
    case hne =>
      intro sl hsl heq
      obtain ⟨j, hj, hje⟩ := List.mem_map.mp hsl
      have h0 : (some (0 : Int) : Option Int) = some sl := congrArg Prod.snd heq
      simp only [Option.some.injEq] at h0
      rw [← hje] at h0
      exact absurd h0.symm (by omega)
    simp only [] at hU2
    have hP3 := pre_receive_ports_preserves ao l2 t1 s' hD
    have hU3 := hP3.2.2.2.2.2.2 ((pn, some 0) : PortKey) hl2
    simp only [] at hU3
    constructor
    · rw [hU3.2, hU2.2, ht2c, ht0c, ← hin0.1]
    · rw [hU3.1, hU2.1, ht2in]


/-- A connected, resizable-free vector F_INIT port of length 2. -/
def port_vec : Port := ⟨.F_INIT, true, true, false, 2, fun _ => true⟩

/-- First pending message on slot 0. -/
def msg_a : Message := ⟨0, none, .user 1, none⟩

/-- Second pending message on slot 0. -/
def msg_b : Message := ⟨0, none, .user 2, none⟩

/-- Pending message on slot 1. -/
def msg_d : Message := ⟨0, none, .user 3, none⟩

/-- A communicator with one connected vector F_INIT port: two messages
pending on slot 0 and one on slot 1. -/
def comm10 : Communicator :=
  ⟨[(.F_INIT, ["vec_in"])],
   fun p => if p = "vec_in" then some port_vec else none,
   false,
   fun p sl =>
     if p = "vec_in" then
       if sl = some 0 then [msg_a, msg_b]
       else if sl = some 1 then [msg_d]
       else []
     else []⟩

/-- A fresh instance state in front of `comm10`. -/
def state10 : InstanceState := ⟨comm10, [], true, [], false, 0⟩

/-- Witness for C10: on the concrete vector port, slot 0's queue is drained
twice, the first message is the one cached, and the second is gone. -/
theorem vector_f_init_slot_zero_first_message_wins_witness :
    (pre_receive_f_init_ state10 false).state?.map
        (fun t => (cache_lookup t.f_init_cache ("vec_in", some 0),
          t.comm.inbox "vec_in" (some 0)))
      = some (some msg_a, ([] : List Message)) :=
  vector_f_init_slot_zero_first_message_wins state10 "vec_in" port_vec [] []
    false msg_a msg_b [] rfl (by decide) (by decide) rfl rfl rfl (by decide)
    rfl (by decide)

end Muscle
